import Mathlib

/-!
Verification of the `needless_if` lint of `clippy_lints`
(src/clippy_lints/src/needless_if.rs) against its specification.

The lint inspects HIR expression nodes one at a time.  We shallowly embed the
fragment of the HIR expression tree that the lint inspects, together with the
host-provided queries it consults (parent lookup, external-macro span test,
procedural-generation provenance test, side-effect predicate, and source-text
snippet extraction).  `checkExpr` is a direct translation of
`NeedlessIf::check_expr`; it returns the list of diagnostics emitted for the
visited node (always empty or a singleton).
-/

namespace NeedlessIf

/-- A source span: a half-open byte range into the original source text. -/
structure Span where
  lo : Nat
  hi : Nat
deriving DecidableEq

/-- Confidence level of a suggested fix (`rustc_errors::Applicability`). -/
inductive Applicability where
  | MachineApplicable
  | MaybeIncorrect
  | HasPlaceholders
  | Unspecified
deriving DecidableEq

/-- A diagnostic as handed to the emission interface `span_lint_and_sugg`:
flagged span, message, suggestion label, replacement text, confidence. -/
structure Diagnostic where
  span : Span
  msg : String
  helpMsg : String
  sugg : String
  app : Applicability
deriving DecidableEq

mutual

/-- A HIR expression node: stable id (`HirId`), span, and kind. -/
inductive Expr where
  | mk (hirId : Nat) (span : Span) (kind : ExprKind)

/-- The expression kinds the lint distinguishes (`rustc_hir::ExprKind`):
conditionals, blocks, pattern-binding tests (`Let`), and a representative
set of compound and leaf kinds for everything else. -/
inductive ExprKind where
  | If (cond : Expr) (thenBranch : Expr) (els : OptExpr)
  | Block (stmts : StmtList) (tailE : OptExpr)
  | Let (init : Expr)
  | Call (callee : Expr) (args : ExprList)
  | MethodCall (receiver : Expr) (args : ExprList)
  | Binary (lhs : Expr) (rhs : Expr)
  | Unary (arg : Expr)
  | Lit
  | Path

inductive OptExpr where
  | none
  | some (e : Expr)

inductive ExprList where
  | nil
  | cons (head : Expr) (tail : ExprList)

inductive StmtList where
  | nil
  | cons (head : Stmt) (tail : StmtList)

/-- A block statement (`rustc_hir::StmtKind`). -/
inductive Stmt where
  | ExprStmt (e : Expr)
  | Semi (e : Expr)
  | LetStmt (init : OptExpr)
  | Item

end

def Expr.hirId : Expr → Nat
  | Expr.mk i _ _ => i

def Expr.span : Expr → Span
  | Expr.mk _ s _ => s

def Expr.kind : Expr → ExprKind
  | Expr.mk _ _ k => k

@[simp] theorem Expr.hirId_mk (i : Nat) (s : Span) (k : ExprKind) :
    (Expr.mk i s k).hirId = i := rfl

@[simp] theorem Expr.span_mk (i : Nat) (s : Span) (k : ExprKind) :
    (Expr.mk i s k).span = s := rfl

@[simp] theorem Expr.kind_mk (i : Nat) (s : Span) (k : ExprKind) :
    (Expr.mk i s k).kind = k := rfl

def OptExpr.isNone : OptExpr → Bool
  | OptExpr.none => true
  | OptExpr.some _ => false

def StmtList.isNil : StmtList → Bool
  | StmtList.nil => true
  | StmtList.cons _ _ => false

/-- A node of the HIR map as returned by `tcx.hir().find`: either an
expression node or some other node kind (statement, block, item, ...). -/
inductive Node where
  | ExprNode (e : Expr)
  | OtherNode

/-- The host context (`LateContext` plus the `clippy_utils` helpers the lint
calls).  Each field is one opaque host query, per the spec's invocation
interface: the external-macro span test, the procedural-generation provenance
test, the side-effect predicate over expressions, the source-text extractor
(`Option.none` when exact source text cannot be recovered), and the parent
lookup (`opt_parent_id` composed with `find`; `Option.none` for the root). -/
structure Context where
  inExternalRegion : Span → Bool
  fromProcGenerated : Expr → Bool
  canHaveSideEffects : Expr → Bool
  sourceText : Span → Option String
  findParent : Nat → Option Node

mutual

/-- `IsAnyLetVisitor`: at a `Let` node set the flag; otherwise `walk_expr`
into every child expression. -/
def isAnyIfLet : Expr → Bool
  | Expr.mk _ _ k => isAnyIfLetKind k

def isAnyIfLetKind : ExprKind → Bool
  | ExprKind.If c t els => isAnyIfLet c || isAnyIfLet t || isAnyIfLetOpt els
  | ExprKind.Block ss tl => isAnyIfLetStmts ss || isAnyIfLetOpt tl
  | ExprKind.Let _ => true
  | ExprKind.Call f as => isAnyIfLet f || isAnyIfLetList as
  | ExprKind.MethodCall r as => isAnyIfLet r || isAnyIfLetList as
  | ExprKind.Binary l r => isAnyIfLet l || isAnyIfLet r
  | ExprKind.Unary a => isAnyIfLet a
  | ExprKind.Lit => false
  | ExprKind.Path => false

def isAnyIfLetOpt : OptExpr → Bool
  | OptExpr.none => false
  | OptExpr.some e => isAnyIfLet e

def isAnyIfLetList : ExprList → Bool
  | ExprList.nil => false
  | ExprList.cons e es => isAnyIfLet e || isAnyIfLetList es

def isAnyIfLetStmts : StmtList → Bool
  | StmtList.nil => false
  | StmtList.cons s ss => isAnyIfLetStmt s || isAnyIfLetStmts ss

def isAnyIfLetStmt : Stmt → Bool
  | Stmt.ExprStmt e => isAnyIfLet e
  | Stmt.Semi e => isAnyIfLet e
  | Stmt.LetStmt init => isAnyIfLetOpt init
  | Stmt.Item => false

end

/-- The "ignore `else if`" test of `check_expr`: the node's syntactic parent
exists, is an expression node of `If` kind with a present else-arm, and that
else-arm's `HirId` is identically this node's `HirId`. -/
def isElseArmOfParent (ctx : Context) (e : Expr) : Bool :=
  match ctx.findParent e.hirId with
  | Option.some (Node.ExprNode p) =>
    match p.kind with
    | ExprKind.If _ _ (OptExpr.some elseE) => elseE.hirId == e.hirId
    | _ => false
  | _ => false

/-- Modelled from the spec: the snippet extractor `snippet_with_applicability`
lives in `clippy_utils::source`, outside this repository's sources.  Per the
spec's `extract_source_text` interface, it returns the exact source text of
the span when the host can recover it; otherwise it substitutes the supplied
placeholder text and downgrades a machine-applicable confidence to
`HasPlaceholders` (needing manual review). -/
def snippetWithApplicability (ctx : Context) (sp : Span) (dflt : String)
    (app : Applicability) : String × Applicability :=
  match ctx.sourceText sp with
  | Option.some s => (s, app)
  | Option.none =>
    (dflt,
     if app = Applicability.MachineApplicable then Applicability.HasPlaceholders
     else app)

/-- Modelled from the spec: the emission interface `span_lint_and_sugg`
(diagnostic rendering lives outside this repository's sources) packages the
span, message, suggestion label, replacement text and confidence into one
emitted diagnostic. -/
def spanLintAndSugg (sp : Span) (msg helpMsg sugg : String)
    (app : Applicability) : List Diagnostic :=
  [Diagnostic.mk sp msg helpMsg sugg app]

/-- Direct translation of `NeedlessIf::check_expr`: returns the diagnostics
emitted for the visited node `e`. -/
def checkExpr (ctx : Context) (e : Expr) : List Diagnostic :=
  match e.kind with
  | ExprKind.If ifExpr thenB els =>
    match thenB.kind with
    | ExprKind.Block stmts tailE =>
      if stmts.isNil && tailE.isNone && els.isNone
          && !ctx.inExternalRegion e.span then
        -- Ignore `else if`
        if isElseArmOfParent ctx e then []
        else if isAnyIfLet ifExpr || ctx.fromProcGenerated e then []
        else
          let sa := snippetWithApplicability ctx ifExpr.span ("\x7b ... \x7d")
            Applicability.MachineApplicable
          spanLintAndSugg e.span ("this `if` branch is empty")
            ("you can remove it")
            (if ctx.canHaveSideEffects ifExpr then sa.fst ++ ";" else "")
            sa.snd
      else []
    | _ => []
  | _ => []

/-- True on a node of pattern-binding conditional-test kind (`ExprKind::Let`). -/
def ExprKind.isLetK : ExprKind → Bool
  | ExprKind.Let _ => true
  | _ => false

/-- True on a pattern-binding conditional-test node. -/
def Expr.isLetNode : Expr → Bool
  | Expr.mk _ _ k => k.isLetK

mutual

/-- Spec-side full recursive traversal: every expression node of the subtree
rooted at `e`, the root included, in visit order. -/
def allSubExprs : Expr → List Expr
  | Expr.mk i s k => Expr.mk i s k :: allSubExprsKind k

def allSubExprsKind : ExprKind → List Expr
  | ExprKind.If c t els => allSubExprs c ++ allSubExprs t ++ allSubExprsOpt els
  | ExprKind.Block ss tl => allSubExprsStmts ss ++ allSubExprsOpt tl
  | ExprKind.Let init => allSubExprs init
  | ExprKind.Call f as => allSubExprs f ++ allSubExprsList as
  | ExprKind.MethodCall r as => allSubExprs r ++ allSubExprsList as
  | ExprKind.Binary l r => allSubExprs l ++ allSubExprs r
  | ExprKind.Unary a => allSubExprs a
  | ExprKind.Lit => []
  | ExprKind.Path => []

def allSubExprsOpt : OptExpr → List Expr
  | OptExpr.none => []
  | OptExpr.some e => allSubExprs e

def allSubExprsList : ExprList → List Expr
  | ExprList.nil => []
  | ExprList.cons e es => allSubExprs e ++ allSubExprsList es

def allSubExprsStmts : StmtList → List Expr
  | StmtList.nil => []
  | StmtList.cons s ss => allSubExprsStmt s ++ allSubExprsStmts ss

def allSubExprsStmt : Stmt → List Expr
  | Stmt.ExprStmt e => allSubExprs e
  | Stmt.Semi e => allSubExprs e
  | Stmt.LetStmt init => allSubExprsOpt init
  | Stmt.Item => []

end

mutual

theorem isAnyIfLet_eq_any : (e : Expr) →
    isAnyIfLet e = (allSubExprs e).any Expr.isLetNode
  | Expr.mk i s k => by
    simp only [isAnyIfLet, allSubExprs, List.any_cons, Expr.isLetNode,
      isAnyIfLetKind_eq_any k]

theorem isAnyIfLetKind_eq_any : (k : ExprKind) →
    isAnyIfLetKind k = (k.isLetK || (allSubExprsKind k).any Expr.isLetNode)
  | ExprKind.If c t els => by
    simp only [isAnyIfLetKind, allSubExprsKind, ExprKind.isLetK,
      List.any_append, Bool.false_or, Bool.or_assoc,
      isAnyIfLet_eq_any c, isAnyIfLet_eq_any t, isAnyIfLetOpt_eq_any els]
  | ExprKind.Block ss tl => by
    simp only [isAnyIfLetKind, allSubExprsKind, ExprKind.isLetK,
      List.any_append, Bool.false_or,
      isAnyIfLetStmts_eq_any ss, isAnyIfLetOpt_eq_any tl]
  | ExprKind.Let init => by
    simp only [isAnyIfLetKind, allSubExprsKind, ExprKind.isLetK, Bool.true_or]
  | ExprKind.Call f as => by
    simp only [isAnyIfLetKind, allSubExprsKind, ExprKind.isLetK,
      List.any_append, Bool.false_or,
      isAnyIfLet_eq_any f, isAnyIfLetList_eq_any as]
  | ExprKind.MethodCall r as => by
    simp only [isAnyIfLetKind, allSubExprsKind, ExprKind.isLetK,
      List.any_append, Bool.false_or,
      isAnyIfLet_eq_any r, isAnyIfLetList_eq_any as]
  | ExprKind.Binary l r => by
    simp only [isAnyIfLetKind, allSubExprsKind, ExprKind.isLetK,
      List.any_append, Bool.false_or,
      isAnyIfLet_eq_any l, isAnyIfLet_eq_any r]
  | ExprKind.Unary a => by
    simp only [isAnyIfLetKind, allSubExprsKind, ExprKind.isLetK, Bool.false_or,
      isAnyIfLet_eq_any a]
  | ExprKind.Lit => by
    simp only [isAnyIfLetKind, allSubExprsKind, ExprKind.isLetK,
      List.any_nil, Bool.or_false]
  | ExprKind.Path => by
    simp only [isAnyIfLetKind, allSubExprsKind, ExprKind.isLetK,
      List.any_nil, Bool.or_false]

theorem isAnyIfLetOpt_eq_any : (o : OptExpr) →
    isAnyIfLetOpt o = (allSubExprsOpt o).any Expr.isLetNode
  | OptExpr.none => by
    simp only [isAnyIfLetOpt, allSubExprsOpt, List.any_nil]
  | OptExpr.some e => by
    simp only [isAnyIfLetOpt, allSubExprsOpt, isAnyIfLet_eq_any e]

theorem isAnyIfLetList_eq_any : (l : ExprList) →
    isAnyIfLetList l = (allSubExprsList l).any Expr.isLetNode
  | ExprList.nil => by
    simp only [isAnyIfLetList, allSubExprsList, List.any_nil]
  | ExprList.cons e es => by
    simp only [isAnyIfLetList, allSubExprsList, List.any_append,
      isAnyIfLet_eq_any e, isAnyIfLetList_eq_any es]

theorem isAnyIfLetStmts_eq_any : (l : StmtList) →
    isAnyIfLetStmts l = (allSubExprsStmts l).any Expr.isLetNode
  | StmtList.nil => by
    simp only [isAnyIfLetStmts, allSubExprsStmts, List.any_nil]
  | StmtList.cons s ss => by
    simp only [isAnyIfLetStmts, allSubExprsStmts, List.any_append,
      isAnyIfLetStmt_eq_any s, isAnyIfLetStmts_eq_any ss]

theorem isAnyIfLetStmt_eq_any : (s : Stmt) →
    isAnyIfLetStmt s = (allSubExprsStmt s).any Expr.isLetNode
  | Stmt.ExprStmt e => by
    simp only [isAnyIfLetStmt, allSubExprsStmt, isAnyIfLet_eq_any e]
  | Stmt.Semi e => by
    simp only [isAnyIfLetStmt, allSubExprsStmt, isAnyIfLet_eq_any e]
  | Stmt.LetStmt init => by
    simp only [isAnyIfLetStmt, allSubExprsStmt, isAnyIfLetOpt_eq_any init]
  | Stmt.Item => by
    simp only [isAnyIfLetStmt, allSubExprsStmt, List.any_nil]

end

@[simp] theorem StmtList.isNil_iff (l : StmtList) :
    StmtList.isNil l = true ↔ l = StmtList.nil := by
  cases l <;> simp [StmtList.isNil]

@[simp] theorem OptExpr.isNone_iff (o : OptExpr) :
    OptExpr.isNone o = true ↔ o = OptExpr.none := by
  cases o <;> simp [OptExpr.isNone]

/-- When every structural and suppression condition of `check_expr` is met,
exactly the one diagnostic built by the suggestion builder is emitted. -/
theorem checkExpr_emit (ctx : Context) (i : Nat) (s : Span) (c t : Expr)
    (ht : t.kind = ExprKind.Block StmtList.nil OptExpr.none)
    (hm : ctx.inExternalRegion s = false)
    (ha : isElseArmOfParent ctx (Expr.mk i s (ExprKind.If c t OptExpr.none)) = false)
    (hl : isAnyIfLet c = false)
    (hp : ctx.fromProcGenerated (Expr.mk i s (ExprKind.If c t OptExpr.none)) = false) :
    checkExpr ctx (Expr.mk i s (ExprKind.If c t OptExpr.none)) =
      [Diagnostic.mk s ("this `if` branch is empty") ("you can remove it")
        (if ctx.canHaveSideEffects c then
          (snippetWithApplicability ctx c.span ("\x7b ... \x7d")
            Applicability.MachineApplicable).fst ++ ";"
         else "")
        (snippetWithApplicability ctx c.span ("\x7b ... \x7d")
          Applicability.MachineApplicable).snd] := by
  simp [checkExpr, ht, hm, ha, hl, hp, spanLintAndSugg, StmtList.isNil,
    OptExpr.isNone]

/-- Inversion: any emitted diagnostic arises from a node meeting every
structural and suppression condition of `check_expr`, and is exactly the
diagnostic built by the suggestion builder. -/
theorem mem_checkExpr (ctx : Context) (e : Expr) (d : Diagnostic)
    (hd : d ∈ checkExpr ctx e) :
    ∃ c t, e.kind = ExprKind.If c t OptExpr.none ∧
      t.kind = ExprKind.Block StmtList.nil OptExpr.none ∧
      ctx.inExternalRegion e.span = false ∧
      isElseArmOfParent ctx e = false ∧
      isAnyIfLet c = false ∧
      ctx.fromProcGenerated e = false ∧
      d = Diagnostic.mk e.span ("this `if` branch is empty")
        ("you can remove it")
        (if ctx.canHaveSideEffects c then
          (snippetWithApplicability ctx c.span ("\x7b ... \x7d")
            Applicability.MachineApplicable).fst ++ ";"
         else "")
        (snippetWithApplicability ctx c.span ("\x7b ... \x7d")
          Applicability.MachineApplicable).snd := by
  unfold checkExpr at hd
  split at hd
  next c t els hk =>
    split at hd
    next ss tl ht =>
      split at hd
      next hcond =>
        simp only [Bool.and_eq_true, Bool.not_eq_true', StmtList.isNil_iff,
          OptExpr.isNone_iff] at hcond
        obtain ⟨⟨⟨hss, htl⟩, hels⟩, hm⟩ := hcond
        subst hss; subst htl; subst hels
        split at hd
        next ha => exact absurd hd (List.not_mem_nil d)
        next ha =>
          split at hd
          next hlp => exact absurd hd (List.not_mem_nil d)
          next hlp =>
            simp only [Bool.or_eq_true, not_or, Bool.not_eq_true] at hlp
            obtain ⟨hl, hp⟩ := hlp
            simp only [spanLintAndSugg, List.mem_singleton] at hd
            exact ⟨c, t, hk, ht, hm, Bool.not_eq_true _ ▸ ha, hl, hp, hd⟩
      next hcond => exact absurd hd (List.not_mem_nil d)
    next ht => exact absurd hd (List.not_mem_nil d)
  next hk => exact absurd hd (List.not_mem_nil d)

/-! Concrete fixtures: small trees and host contexts used to witness the
theorems below on closed inputs. -/

/-- Fixture: a pure leaf condition (`x > 0` rendered as a path/leaf). -/
def condPure : Expr := Expr.mk 2 (Span.mk 3 8) ExprKind.Path

/-- Fixture: an empty then-block. -/
def emptyThen : Expr :=
  Expr.mk 1 (Span.mk 9 11) (ExprKind.Block StmtList.nil OptExpr.none)

/-- Fixture: `if x > 0 \x7b\x7d` with no else branch. -/
def ifEmptyNode : Expr :=
  Expr.mk 0 (Span.mk 0 11) (ExprKind.If condPure emptyThen OptExpr.none)

/-- Fixture: an else block. -/
def elseBlock : Expr :=
  Expr.mk 7 (Span.mk 17 30) (ExprKind.Block StmtList.nil OptExpr.none)

/-- Fixture: `if x > 0 \x7b\x7d else \x7b ... \x7d`. -/
def ifWithElse : Expr :=
  Expr.mk 6 (Span.mk 12 30) (ExprKind.If condPure emptyThen (OptExpr.some elseBlock))

/-- Fixture host: nothing external, nothing generated, side-effect-free
conditions, recoverable source text, every node a root. -/
def ctxPlain : Context :=
  Context.mk (fun _ => false) (fun _ => false) (fun _ => false)
    (fun _ => Option.some ("x > 0")) (fun _ => Option.none)

/-- Fixture host: every span lies in an external/macro-expanded region. -/
def ctxExternal : Context :=
  Context.mk (fun _ => true) (fun _ => false) (fun _ => false)
    (fun _ => Option.some ("x > 0")) (fun _ => Option.none)

/-- Fixture host: every node reported as procedurally generated. -/
def ctxProcGen : Context :=
  Context.mk (fun _ => false) (fun _ => true) (fun _ => false)
    (fun _ => Option.some ("x > 0")) (fun _ => Option.none)

/-- Fixture host: source text never recoverable, conditions side-effect-free. -/
def ctxNoSnippet : Context :=
  Context.mk (fun _ => false) (fun _ => false) (fun _ => false)
    (fun _ => Option.none) (fun _ => Option.none)

/-- Fixture: a side-effecting call condition `f(x)`. -/
def condCall : Expr :=
  Expr.mk 21 (Span.mk 43 47)
    (ExprKind.Call (Expr.mk 22 (Span.mk 43 44) ExprKind.Path) ExprList.nil)

/-- Fixture: an empty then-block for the side-effecting candidate. -/
def emptyThenC : Expr :=
  Expr.mk 23 (Span.mk 48 50) (ExprKind.Block StmtList.nil OptExpr.none)

/-- Fixture: `if f(x) \x7b\x7d` with no else branch. -/
def ifSideNode : Expr :=
  Expr.mk 20 (Span.mk 40 50) (ExprKind.If condCall emptyThenC OptExpr.none)

/-- Fixture host: side-effecting conditions, recoverable source text. -/
def ctxSide : Context :=
  Context.mk (fun _ => false) (fun _ => false) (fun _ => true)
    (fun _ => Option.some ("f(x)")) (fun _ => Option.none)

/-- Fixture: the diagnostic emitted for `ifEmptyNode` under `ctxPlain`. -/
def dPure : Diagnostic :=
  Diagnostic.mk (Span.mk 0 11) ("this `if` branch is empty")
    ("you can remove it") "" Applicability.MachineApplicable

/-- Fixture: the diagnostic emitted for `ifSideNode` under `ctxSide`. -/
def dSide : Diagnostic :=
  Diagnostic.mk (Span.mk 40 50) ("this `if` branch is empty")
    ("you can remove it") ("f(x);") Applicability.MachineApplicable

/-- Fixture: the diagnostic emitted for `ifEmptyNode` under `ctxNoSnippet`. -/
def dNoSnip : Diagnostic :=
  Diagnostic.mk (Span.mk 0 11) ("this `if` branch is empty")
    ("you can remove it") "" Applicability.HasPlaceholders

/-- C1: for every visited conditional node whose then-branch is a block with
zero statements and no tail expression, that has no else-branch, is not the
else-arm of an enclosing conditional, contains no pattern-binding conditional
test anywhere in its condition, and does not originate from macro-expanded or
procedurally generated code, the rule emits exactly one diagnostic. -/
theorem c1_exactly_one_diagnostic (ctx : Context) (e c t : Expr)
    (hk : e.kind = ExprKind.If c t OptExpr.none)
    (ht : t.kind = ExprKind.Block StmtList.nil OptExpr.none)
    (ha : isElseArmOfParent ctx e = false)
    (hl : ∀ n ∈ allSubExprs c, n.isLetNode = false)
    (hm : ctx.inExternalRegion e.span = false)
    (hp : ctx.fromProcGenerated e = false) :
    (checkExpr ctx e).length = 1 := by
  have hl2 : isAnyIfLet c = false := by
    rw [isAnyIfLet_eq_any]
    simp only [List.any_eq_false]
    intro n hn
    simp [hl n hn]
  obtain ⟨i, s, k⟩ := e
  simp only [Expr.kind_mk] at hk
  subst hk
  simp only [Expr.span_mk] at hm
  rw [checkExpr_emit ctx i s c t ht hm ha hl2 hp]
  rfl

/-- Witness for C1 on the closed fixture `if x > 0 \x7b\x7d`. -/
theorem c1_witness :
    ifEmptyNode.kind = ExprKind.If condPure emptyThen OptExpr.none ∧
    emptyThen.kind = ExprKind.Block StmtList.nil OptExpr.none ∧
    isElseArmOfParent ctxPlain ifEmptyNode = false ∧
    (∀ n ∈ allSubExprs condPure, n.isLetNode = false) ∧
    ctxPlain.inExternalRegion ifEmptyNode.span = false ∧
    ctxPlain.fromProcGenerated ifEmptyNode = false ∧
    (checkExpr ctxPlain ifEmptyNode).length = 1 :=
  ⟨rfl, rfl, rfl, by decide, rfl, rfl,
    c1_exactly_one_diagnostic ctxPlain ifEmptyNode condPure emptyThen rfl rfl rfl
      (by decide) rfl rfl⟩

/-- C2: every visited node that is not a conditional, or whose then-branch
block has at least one statement or a tail expression, or that has an
else-branch, yields no diagnostic. -/
theorem c2_non_candidate_emits_nothing (ctx : Context) (e : Expr)
    (h : (∀ c t els, e.kind ≠ ExprKind.If c t els) ∨
         (∃ c t els s0 ss tl, e.kind = ExprKind.If c t els ∧
            t.kind = ExprKind.Block (StmtList.cons s0 ss) tl) ∨
         (∃ c t els ss te, e.kind = ExprKind.If c t els ∧
            t.kind = ExprKind.Block ss (OptExpr.some te)) ∨
         (∃ c t ee, e.kind = ExprKind.If c t (OptExpr.some ee))) :
    checkExpr ctx e = [] := by
  by_contra hne
  obtain ⟨d, hd⟩ := List.exists_mem_of_ne_nil _ hne
  obtain ⟨c, t, hk, ht, -, -, -, -, -⟩ := mem_checkExpr ctx e d hd
  rcases h with h1 | ⟨c2, t2, els2, s0, ss, tl, hk2, ht2⟩
    | ⟨c2, t2, els2, ss, te, hk2, ht2⟩ | ⟨c2, t2, ee, hk2⟩
  · exact h1 c t OptExpr.none hk
  · rw [hk] at hk2
    injection hk2 with h1 h2 h3
    subst h2
    rw [ht] at ht2
    injection ht2 with h4 h5
    exact StmtList.noConfusion h4
  · rw [hk] at hk2
    injection hk2 with h1 h2 h3
    subst h2
    rw [ht] at ht2
    injection ht2 with h4 h5
    exact OptExpr.noConfusion h5
  · rw [hk] at hk2
    injection hk2 with h1 h2 h3
    exact OptExpr.noConfusion h3

/-- Witness for C2 on the closed fixture `if x > 0 \x7b\x7d else \x7b\x7d`. -/
theorem c2_witness :
    ((∀ c t els, ifWithElse.kind ≠ ExprKind.If c t els) ∨
     (∃ c t els s0 ss tl, ifWithElse.kind = ExprKind.If c t els ∧
        t.kind = ExprKind.Block (StmtList.cons s0 ss) tl) ∨
     (∃ c t els ss te, ifWithElse.kind = ExprKind.If c t els ∧
        t.kind = ExprKind.Block ss (OptExpr.some te)) ∨
     (∃ c t ee, ifWithElse.kind = ExprKind.If c t (OptExpr.some ee))) ∧
    checkExpr ctxPlain ifWithElse = [] :=
  ⟨Or.inr (Or.inr (Or.inr ⟨condPure, emptyThen, elseBlock, rfl⟩)),
   c2_non_candidate_emits_nothing ctxPlain ifWithElse
     (Or.inr (Or.inr (Or.inr ⟨condPure, emptyThen, elseBlock, rfl⟩)))⟩

/-- C6: the external-macro-region check and the procedural-generation check
are independent suppressions; whenever either host query holds for the
visited node, no diagnostic is emitted, regardless of the node's shape. -/
theorem c6_provenance_suppression (ctx : Context) (e : Expr)
    (h : ctx.inExternalRegion e.span = true ∨ ctx.fromProcGenerated e = true) :
    checkExpr ctx e = [] := by
  by_contra hne
  obtain ⟨d, hd⟩ := List.exists_mem_of_ne_nil _ hne
  obtain ⟨-, -, -, -, hm, -, -, hp, -⟩ := mem_checkExpr ctx e d hd
  rcases h with h | h
  · rw [hm] at h
    exact Bool.noConfusion h
  · rw [hp] at h
    exact Bool.noConfusion h

/-- Witness for C6 on the closed fixture `if x > 0 \x7b\x7d` placed in an
external/macro-expanded region (and, dually, a proc-generated node). -/
theorem c6_witness :
    (ctxExternal.inExternalRegion ifEmptyNode.span = true ∨
      ctxExternal.fromProcGenerated ifEmptyNode = true) ∧
    checkExpr ctxExternal ifEmptyNode = [] ∧
    (ctxProcGen.inExternalRegion ifEmptyNode.span = true ∨
      ctxProcGen.fromProcGenerated ifEmptyNode = true) ∧
    checkExpr ctxProcGen ifEmptyNode = [] :=
  ⟨Or.inl rfl, c6_provenance_suppression ctxExternal ifEmptyNode (Or.inl rfl),
   Or.inr rfl, c6_provenance_suppression ctxProcGen ifEmptyNode (Or.inr rfl)⟩

/-- C3: for every emitted diagnostic, if the host's side-effect predicate
reports the condition side-effect-free the replacement text is empty,
otherwise it is exactly the condition's extracted source text (as returned by
the snippet extractor) followed by a statement terminator. -/
theorem c3_replacement_text (ctx : Context) (e : Expr) (d : Diagnostic)
    (hd : d ∈ checkExpr ctx e) :
    ∃ c t, e.kind = ExprKind.If c t OptExpr.none ∧
      (ctx.canHaveSideEffects c = false → d.sugg = "") ∧
      (ctx.canHaveSideEffects c = true →
        d.sugg = (snippetWithApplicability ctx c.span ("\x7b ... \x7d")
          Applicability.MachineApplicable).fst ++ ";") := by
  obtain ⟨c, t, hk, -, -, -, -, -, hdiag⟩ := mem_checkExpr ctx e d hd
  refine ⟨c, t, hk, ?_, ?_⟩ <;> intro hside <;> simp [hdiag, hside]

/-- Witness for C3 on the side-effecting closed fixture `if f(x) \x7b\x7d`,
whose emitted replacement is the extracted text `f(x)` followed by a
semicolon. -/
theorem c3_witness :
    dSide ∈ checkExpr ctxSide ifSideNode ∧
    ∃ c t, ifSideNode.kind = ExprKind.If c t OptExpr.none ∧
      (ctxSide.canHaveSideEffects c = false → dSide.sugg = "") ∧
      (ctxSide.canHaveSideEffects c = true →
        dSide.sugg = (snippetWithApplicability ctxSide c.span ("\x7b ... \x7d")
          Applicability.MachineApplicable).fst ++ ";") :=
  ⟨by decide, c3_replacement_text ctxSide ifSideNode dSide (by decide)⟩

/-- C7: whenever the snippet extractor cannot recover exact source text for
the condition, the emitted diagnostic's confidence is downgraded from
machine-applicable to needing manual review (`HasPlaceholders`); when the
text is recovered, the confidence stays machine-applicable, and no other
error is surfaced. -/
theorem c7_snippet_confidence (ctx : Context) (e : Expr) (d : Diagnostic)
    (hd : d ∈ checkExpr ctx e) :
    ∃ c t, e.kind = ExprKind.If c t OptExpr.none ∧
      (ctx.sourceText c.span = Option.none →
        d.app = Applicability.HasPlaceholders) ∧
      (∀ str, ctx.sourceText c.span = Option.some str →
        d.app = Applicability.MachineApplicable) := by
  obtain ⟨c, t, hk, -, -, -, -, -, hdiag⟩ := mem_checkExpr ctx e d hd
  refine ⟨c, t, hk, ?_, ?_⟩
  · intro hsrc
    simp [hdiag, snippetWithApplicability, hsrc]
  · intro str hsrc
    simp [hdiag, snippetWithApplicability, hsrc]

/-- Witness for C7 on the closed fixture `if x > 0 \x7b\x7d` under a host
that cannot recover source text: the emitted confidence is
`HasPlaceholders`. -/
theorem c7_witness :
    dNoSnip ∈ checkExpr ctxNoSnippet ifEmptyNode ∧
    ∃ c t, ifEmptyNode.kind = ExprKind.If c t OptExpr.none ∧
      (ctxNoSnippet.sourceText c.span = Option.none →
        dNoSnip.app = Applicability.HasPlaceholders) ∧
      (∀ str, ctxNoSnippet.sourceText c.span = Option.some str →
        dNoSnip.app = Applicability.MachineApplicable) :=
  ⟨by decide, c7_snippet_confidence ctxNoSnippet ifEmptyNode dNoSnip (by decide)⟩

/-- C10: the condition's source text is rendered before the side-effect
check, so even when the condition is side-effect-free and the replacement is
the empty string, an unrecoverable condition snippet still downgrades the
emitted confidence to needing manual review. -/
theorem c10_snippet_rendered_unconditionally (ctx : Context) (e : Expr)
    (d : Diagnostic) (hd : d ∈ checkExpr ctx e) :
    ∃ c t, e.kind = ExprKind.If c t OptExpr.none ∧
      (ctx.sourceText c.span = Option.none →
        d.app = Applicability.HasPlaceholders ∧
        (ctx.canHaveSideEffects c = false → d.sugg = "")) := by
  obtain ⟨c, t, hk, -, -, -, -, -, hdiag⟩ := mem_checkExpr ctx e d hd
  refine ⟨c, t, hk, ?_⟩
  intro hsrc
  constructor
  · simp [hdiag, snippetWithApplicability, hsrc]
  · intro hside
    simp [hdiag, hside]

/-- Witness for C10: under a host with an unrecoverable snippet and a
side-effect-free condition, the emitted diagnostic has an empty replacement
yet carries the `HasPlaceholders` confidence. -/
theorem c10_witness :
    dNoSnip ∈ checkExpr ctxNoSnippet ifEmptyNode ∧
    dNoSnip.sugg = "" ∧
    ∃ c t, ifEmptyNode.kind = ExprKind.If c t OptExpr.none ∧
      (ctxNoSnippet.sourceText c.span = Option.none →
        dNoSnip.app = Applicability.HasPlaceholders ∧
        (ctxNoSnippet.canHaveSideEffects c = false → dNoSnip.sugg = "")) :=
  ⟨by decide, rfl,
   c10_snippet_rendered_unconditionally ctxNoSnippet ifEmptyNode dNoSnip
     (by decide)⟩

/-- C8 counterexample: the rule emits its diagnostic with the fixed message
"this `if` branch is empty", not "this conditional branch is empty" as the
claim states, falsifying the claim on the closed fixture
`if x > 0 \x7b\x7d`. -/
theorem c8_counterexample :
    (checkExpr ctxPlain ifEmptyNode).map Diagnostic.msg =
      [("this `if` branch is empty")] ∧
    ("this `if` branch is empty" : String) ≠
      ("this conditional branch is empty") := by
  constructor
  · decide
  · decide

/-- C8 (amended): every emitted diagnostic carries the span of the entire
`if` expression, the fixed message "this `if` branch is empty", and the
fixed suggestion label "you can remove it". -/
theorem c8_diag_contents (ctx : Context) (e : Expr) (d : Diagnostic)
    (hd : d ∈ checkExpr ctx e) :
    d.span = e.span ∧ d.msg = ("this `if` branch is empty") ∧
    d.helpMsg = ("you can remove it") := by
  obtain ⟨c, t, -, -, -, -, -, -, hdiag⟩ := mem_checkExpr ctx e d hd
  simp [hdiag]

/-- Witness for the amended C8 on the closed fixture `if x > 0 \x7b\x7d`. -/
theorem c8_witness :
    dPure ∈ checkExpr ctxPlain ifEmptyNode ∧
    (dPure.span = ifEmptyNode.span ∧
     dPure.msg = ("this `if` branch is empty") ∧
     dPure.helpMsg = ("you can remove it")) :=
  ⟨by decide, c8_diag_contents ctxPlain ifEmptyNode dPure (by decide)⟩

/-- Characterization of the else-arm test: it holds exactly when the host
reports a parent that is an expression node of `If` kind whose else-slot's
`HirId` is identically the candidate's `HirId`. -/
theorem isElseArmOfParent_iff (ctx : Context) (e : Expr) :
    isElseArmOfParent ctx e = true ↔
      ∃ p ee, ctx.findParent e.hirId = Option.some (Node.ExprNode p) ∧
        (∃ pc pt, p.kind = ExprKind.If pc pt (OptExpr.some ee)) ∧
        ee.hirId = e.hirId := by
  unfold isElseArmOfParent
  cases hpar : ctx.findParent e.hirId with
  | none => simp
  | some nd =>
    cases nd with
    | OtherNode => simp
    | ExprNode p =>
      cases hpk : p.kind with
      | If pc pt pels =>
        cases pels with
        | none => simp [hpk]
        | some ee => simp [hpk]
      | Block ss tl => simp [hpk]
      | Let i2 => simp [hpk]
      | Call f as => simp [hpk]
      | MethodCall r as => simp [hpk]
      | Binary l r => simp [hpk]
      | Unary a => simp [hpk]
      | Lit => simp [hpk]
      | Path => simp [hpk]

/-- Fixture: the then-block of the enclosing parent conditional. -/
def parentThen : Expr :=
  Expr.mk 31 (Span.mk 8 10) (ExprKind.Block StmtList.nil OptExpr.none)

/-- Fixture: an enclosing `if ... \x7b\x7d else if x > 0 \x7b\x7d` whose
else-slot is identically `ifEmptyNode`. -/
def parentIfNode : Expr :=
  Expr.mk 30 (Span.mk 0 40)
    (ExprKind.If condPure parentThen (OptExpr.some ifEmptyNode))

/-- Fixture host: reports `parentIfNode` as the parent of `ifEmptyNode`. -/
def ctxElseArm : Context :=
  Context.mk (fun _ => false) (fun _ => false) (fun _ => false)
    (fun _ => Option.some ("x > 0"))
    (fun n => if n == 0 then Option.some (Node.ExprNode parentIfNode)
              else Option.none)

/-- C4: a structurally matching candidate (otherwise unsuppressed) is
silently rejected if and only if the host reports a syntactic parent that is
itself a conditional whose else-slot is identically this candidate node
(identity on the `HirId` handle); a node with no parent is a definitive
"not an else-arm" answer and remains a candidate. -/
theorem c4_else_arm_rejection (ctx : Context) (e c t : Expr)
    (hk : e.kind = ExprKind.If c t OptExpr.none)
    (ht : t.kind = ExprKind.Block StmtList.nil OptExpr.none)
    (hm : ctx.inExternalRegion e.span = false)
    (hl : isAnyIfLet c = false)
    (hp : ctx.fromProcGenerated e = false) :
    (checkExpr ctx e = [] ↔ isElseArmOfParent ctx e = true) ∧
    (isElseArmOfParent ctx e = true ↔
      ∃ p ee, ctx.findParent e.hirId = Option.some (Node.ExprNode p) ∧
        (∃ pc pt, p.kind = ExprKind.If pc pt (OptExpr.some ee)) ∧
        ee.hirId = e.hirId) ∧
    (ctx.findParent e.hirId = Option.none →
      isElseArmOfParent ctx e = false) := by
  have hemit : isElseArmOfParent ctx e = false → checkExpr ctx e ≠ [] := by
    intro ha
    obtain ⟨i, s, k⟩ := e
    simp only [Expr.kind_mk] at hk
    subst hk
    simp only [Expr.span_mk] at hm
    rw [checkExpr_emit ctx i s c t ht hm ha hl hp]
    simp
  have hrej : isElseArmOfParent ctx e = true → checkExpr ctx e = [] := by
    intro ha
    by_contra hne
    obtain ⟨d, hd⟩ := List.exists_mem_of_ne_nil _ hne
    obtain ⟨-, -, -, -, -, ha2, -, -, -⟩ := mem_checkExpr ctx e d hd
    rw [ha] at ha2
    exact Bool.noConfusion ha2
  refine ⟨⟨?_, hrej⟩, isElseArmOfParent_iff ctx e, ?_⟩
  · intro h
    cases ha : isElseArmOfParent ctx e with
    | false => exact absurd h (hemit ha)
    | true => rfl
  · intro hpar
    unfold isElseArmOfParent
    rw [hpar]

/-- Witness for C4 on closed fixtures: at the root (no parent) the candidate
`if x > 0 \x7b\x7d` is not rejected; as the identical else-slot of an
enclosing conditional it is silently rejected. -/
theorem c4_witness :
    ifEmptyNode.kind = ExprKind.If condPure emptyThen OptExpr.none ∧
    emptyThen.kind = ExprKind.Block StmtList.nil OptExpr.none ∧
    ctxPlain.inExternalRegion ifEmptyNode.span = false ∧
    isAnyIfLet condPure = false ∧
    ctxPlain.fromProcGenerated ifEmptyNode = false ∧
    ((checkExpr ctxPlain ifEmptyNode = [] ↔
        isElseArmOfParent ctxPlain ifEmptyNode = true) ∧
     (isElseArmOfParent ctxPlain ifEmptyNode = true ↔
       ∃ p ee, ctxPlain.findParent ifEmptyNode.hirId =
           Option.some (Node.ExprNode p) ∧
         (∃ pc pt, p.kind = ExprKind.If pc pt (OptExpr.some ee)) ∧
         ee.hirId = ifEmptyNode.hirId) ∧
     (ctxPlain.findParent ifEmptyNode.hirId = Option.none →
       isElseArmOfParent ctxPlain ifEmptyNode = false)) ∧
    ((checkExpr ctxElseArm ifEmptyNode = [] ↔
        isElseArmOfParent ctxElseArm ifEmptyNode = true) ∧
     (isElseArmOfParent ctxElseArm ifEmptyNode = true ↔
       ∃ p ee, ctxElseArm.findParent ifEmptyNode.hirId =
           Option.some (Node.ExprNode p) ∧
         (∃ pc pt, p.kind = ExprKind.If pc pt (OptExpr.some ee)) ∧
         ee.hirId = ifEmptyNode.hirId) ∧
     (ctxElseArm.findParent ifEmptyNode.hirId = Option.none →
       isElseArmOfParent ctxElseArm ifEmptyNode = false)) :=
  ⟨rfl, rfl, rfl, rfl, rfl,
   c4_else_arm_rejection ctxPlain ifEmptyNode condPure emptyThen
     rfl rfl rfl rfl rfl,
   c4_else_arm_rejection ctxElseArm ifEmptyNode condPure emptyThen
     rfl rfl rfl rfl rfl⟩

/-- Fixture: pattern-binding test `pattern_test(x)` nested at depth three
inside the condition `f(g(pattern_test(x)))`. -/
def letLeaf : Expr := Expr.mk 16 (Span.mk 25 27) ExprKind.Path

/-- Fixture: the pattern-binding conditional test node. -/
def letNodeE : Expr := Expr.mk 15 (Span.mk 24 28) (ExprKind.Let letLeaf)

/-- Fixture: callee `g`. -/
def calleeG : Expr := Expr.mk 17 (Span.mk 23 24) ExprKind.Path

/-- Fixture: `g(pattern_test(x))`. -/
def innerCallG : Expr :=
  Expr.mk 14 (Span.mk 23 29)
    (ExprKind.Call calleeG (ExprList.cons letNodeE ExprList.nil))

/-- Fixture: callee `f`. -/
def calleeF : Expr := Expr.mk 18 (Span.mk 22 23) ExprKind.Path

/-- Fixture: condition `f(g(pattern_test(x)))`. -/
def condDeepLet : Expr :=
  Expr.mk 13 (Span.mk 22 30)
    (ExprKind.Call calleeF (ExprList.cons innerCallG ExprList.nil))

/-- Fixture: `if f(g(pattern_test(x))) \x7b\x7d` with no else branch. -/
def ifDeepLet : Expr :=
  Expr.mk 11 (Span.mk 20 32) (ExprKind.If condDeepLet emptyThen OptExpr.none)

/-- C5: the pattern-binding suppression check returns true if and only if a
full recursive traversal of the condition subtree reaches at least one
pattern-binding conditional-test node at any nesting depth; and whenever it
returns true for a conditional's condition, no diagnostic is emitted. -/
theorem c5_pattern_binding_suppression (e : Expr) :
    (isAnyIfLet e = true ↔ ∃ n, n ∈ allSubExprs e ∧ n.isLetNode = true) ∧
    (∀ ctx ex c t els, ex.kind = ExprKind.If c t els → isAnyIfLet c = true →
      checkExpr ctx ex = []) := by
  constructor
  · rw [isAnyIfLet_eq_any, List.any_eq_true]
  · intro ctx ex c t els hk hlet
    by_contra hne
    obtain ⟨d, hd⟩ := List.exists_mem_of_ne_nil _ hne
    obtain ⟨c2, t2, hk2, -, -, -, hl2, -, -⟩ := mem_checkExpr ctx ex d hd
    rw [hk] at hk2
    injection hk2 with h1 h2 h3
    subst h1
    rw [hlet] at hl2
    exact Bool.noConfusion hl2

/-- Witness for C5 on the closed fixture `if f(g(pattern_test(x))) \x7b\x7d`:
the pattern-binding test sits at nesting depth three inside the condition,
the check fires, and no diagnostic is emitted. -/
theorem c5_witness :
    (isAnyIfLet condDeepLet = true ↔
      ∃ n, n ∈ allSubExprs condDeepLet ∧ n.isLetNode = true) ∧
    ifDeepLet.kind = ExprKind.If condDeepLet emptyThen OptExpr.none ∧
    isAnyIfLet condDeepLet = true ∧
    checkExpr ctxPlain ifDeepLet = [] :=
  ⟨(c5_pattern_binding_suppression condDeepLet).1, rfl, by decide,
   (c5_pattern_binding_suppression condDeepLet).2 ctxPlain ifDeepLet
     condDeepLet emptyThen OptExpr.none rfl (by decide)⟩

/-- C9: applying an emitted suggestion and re-running the rule never yields a
new match at the same location.  An empty replacement removes the node
entirely; a `cond;` replacement leaves exactly the condition's subtree at the
site, and (its spans being proper subspans of the removed `if` expression's
span, hence distinct from it) every diagnostic of a re-run on that subtree
carries a span different from the original diagnostic's span. -/
theorem c9_fix_idempotent (ctx ctx2 : Context) (e c t : Expr) (els : OptExpr)
    (d : Diagnostic)
    (hk : e.kind = ExprKind.If c t els)
    (hd : d ∈ checkExpr ctx e)
    (hspan : ∀ n ∈ allSubExprs c, n.span ≠ e.span) :
    ∀ d2, d2 ∈ (if d.sugg = "" then ([] : List Expr)
        else allSubExprs c).flatMap (checkExpr ctx2) →
      d2.span ≠ d.span := by
  intro d2 hd2
  have hds : d.span = e.span := by
    obtain ⟨c3, t3, -, -, -, -, -, -, hdiag⟩ := mem_checkExpr ctx e d hd
    simp [hdiag]
  by_cases hs : d.sugg = ""
  · rw [if_pos hs] at hd2
    simp at hd2
  · rw [if_neg hs] at hd2
    obtain ⟨n, hn, hdn⟩ := List.mem_flatMap.mp hd2
    obtain ⟨c4, t4, -, -, -, -, -, -, hdiag2⟩ := mem_checkExpr ctx2 n d2 hdn
    have hd2s : d2.span = n.span := by simp [hdiag2]
    rw [hd2s, hds]
    exact hspan n hn

/-- Witness for C9 on the closed fixture `if f(x) \x7b\x7d`: the suggestion
`f(x);` is applied and re-running the rule over the remaining subtree yields
no diagnostic at the original location. -/
theorem c9_witness :
    ifSideNode.kind = ExprKind.If condCall emptyThenC OptExpr.none ∧
    dSide ∈ checkExpr ctxSide ifSideNode ∧
    (∀ n ∈ allSubExprs condCall, n.span ≠ ifSideNode.span) ∧
    (∀ d2, d2 ∈ (if dSide.sugg = "" then ([] : List Expr)
        else allSubExprs condCall).flatMap (checkExpr ctxSide) →
      d2.span ≠ dSide.span) :=
  ⟨rfl, by decide, by decide,
   c9_fix_idempotent ctxSide ctxSide ifSideNode condCall emptyThenC
     OptExpr.none dSide rfl (by decide) (by decide)⟩

end NeedlessIf
